import Mathlib

/-!
Shallow embedding of the scheduled multi-platform publishing pipeline
(`src/db.py` and `src/tasks.py` of the marketing-automation-agent repository).

Modelling conventions:
* ISO-8601 timestamp strings are modelled as integers (`Int`); the string
  comparison `created_at < cutoff` on ISO strings is chronological, so it is
  modelled as integer `<`.  A retention window of `days` days is modelled as
  the time-quantity `days` in the same units.
* JSON dictionaries keyed by strings are modelled as association lists; the
  Python dict assignment `d[k] = v` keeps the position of an existing key and
  replaces its value, which `setA` below reproduces.
* The per-platform payload (`contents[platform]`, a JSON object) is modelled
  as a `String`; Python's falsy test `if not platform_content` is modelled as
  "absent or empty string", and the falsy test on the whole contents dict as
  "absent or empty list".
* sqlite rows are association-list entries; `INSERT` into a table with a
  primary/unique key raises `IntegrityError`, modelled by `Except.error`;
  `INSERT OR IGNORE` is a conditional append.
* `str(results)` (serialization of the per-platform outcome dict into the
  `result` column) is modelled by storing the structured value itself.
* The Publisher Capability (network code in `src/publishers/__init__.py`) is
  external; it is modelled by an environment `Env` giving, per platform, the
  outcome of `create_publisher`, `validate_content` and `publish`.  Exceptions
  raised by those calls are `Except.error`.
-/

namespace Pipeline

/-- The dictionary returned by a Publisher Capability's `publish`
(`src/publishers/__init__.py`): the executor reads its `success`, `post_id`
and `url` keys (`result.get` with `False`/`None` defaults). -/
structure PubResult where
  success : Bool
  post_id : Option String
  url : Option String
  deriving Repr, DecidableEq

/-- One entry of the executor's per-platform `results` dict
(`src/tasks.py`, `publish_scheduled_task`). -/
inductive POutcome where
  /-- `{"success": True, "skipped": True, "post_id": ..., "url": ...}` —
  idempotent skip reusing the stored receipt. -/
  | skipped (post_id : Option String) (post_url : Option String)
  /-- `{"success": False, "error": "No content for <platform>"}`. -/
  | noContent
  /-- `{"success": False, "error": "Content validation failed"}`. -/
  | validationFailed
  /-- `{"success": False, "error": str(e)}` — an exception raised by
  `create_publisher`, `validate_content` or `publish`. -/
  | exn (msg : String)
  /-- the dict returned by `publisher.publish`. -/
  | published (r : PubResult)
  deriving Repr, DecidableEq

/-- `r.get("success", False)` on a results entry. -/
def POutcome.success : POutcome → Bool
  | .skipped _ _ => true
  | .noContent => false
  | .validationFailed => false
  | .exn _ => false
  | .published r => r.success

/-- The executor's `results` dict: platform → outcome. -/
abbrev ResultsMap := List (String × POutcome)

/-- A row of the `scheduled_tasks` table (`src/db.py`, `init_db`). -/
structure Task where
  task_id : String
  celery_task_id : Option String
  content_id : String
  platforms : List String
  scheduled_time : Int
  status : String
  created_at : Int
  started_at : Option Int
  finished_at : Option Int
  error : Option String
  result : Option ResultsMap
  deriving Repr, DecidableEq

/-- A row of the `task_contents` table: `contents_json` is the parsed
platform → payload mapping. -/
structure Content where
  content_id : String
  contents_json : List (String × String)
  created_at : Int
  deriving Repr, DecidableEq

/-- A row of the `published_posts` table (the autoincrement `id` column is
omitted; rows are identified by the unique `(task_id, platform)` key). -/
structure Receipt where
  task_id : String
  platform : String
  post_id : Option String
  post_url : Option String
  published_at : Int
  deriving Repr, DecidableEq

/-- The persistent store: the three sqlite tables. -/
structure DB where
  tasks : List Task
  contents : List Content
  published : List Receipt
  deriving Repr, DecidableEq

/-- `store_content` (`src/db.py` lines 80–93): plain `INSERT` into
`task_contents`, so a duplicate `content_id` violates the primary key and
raises `IntegrityError`. -/
def store_content (db : DB) (content_id : String)
    (contents : List (String × String)) (now : Int) : Except String DB :=
  if db.contents.any (fun c => c.content_id == content_id) then
    Except.error "UNIQUE constraint failed: task_contents.content_id"
  else
    Except.ok { db with contents := db.contents ++ [⟨content_id, contents, now⟩] }

/-- `get_content` (`src/db.py` lines 96–106). -/
def get_content (db : DB) (content_id : String) : Option (List (String × String)) :=
  (db.contents.find? (fun c => c.content_id == content_id)).map (·.contents_json)

/-- `create_task` (`src/db.py` lines 109–133): plain `INSERT` into
`scheduled_tasks` (primary key `task_id`), status defaulting to
`'scheduled'`, the remaining columns NULL. -/
def create_task (db : DB) (task_id : String) (celery_task_id : Option String)
    (content_id : String) (platforms : List String)
    (scheduled_time now : Int) : Except String DB :=
  if db.tasks.any (fun t => t.task_id == task_id) then
    Except.error "UNIQUE constraint failed: scheduled_tasks.task_id"
  else
    Except.ok { db with tasks := db.tasks ++
      [{ task_id := task_id
         celery_task_id := celery_task_id
         content_id := content_id
         platforms := platforms
         scheduled_time := scheduled_time
         status := "scheduled"
         created_at := now
         started_at := none
         finished_at := none
         error := none
         result := none }] }

/-- `get_task` (`src/db.py` lines 136–150). -/
def get_task (db : DB) (task_id : String) : Option Task :=
  db.tasks.find? (fun t => t.task_id == task_id)

/-- The update applied to a matching row by `update_task_status`
(`src/db.py` lines 153–192): `running` sets `started_at`; the three statuses
`completed`/`failed`/`partial_failure` set `error`, `result` and
`finished_at`; every other status (e.g. `cancelled`) sets only `status` and
`error`. -/
def updateRow (status : String) (error : Option String)
    (result : Option ResultsMap) (now : Int) (t : Task) : Task :=
  if status == "running" then
    { t with status := status, started_at := some now }
  else if status == "completed" || status == "failed" || status == "partial_failure" then
    { t with status := status, error := error, result := result, finished_at := some now }
  else
    { t with status := status, error := error }

/-- `update_task_status` (`src/db.py` lines 153–192): `UPDATE ... WHERE
task_id = ?` applies `updateRow` to every matching row. -/
def update_task_status (db : DB) (task_id status : String)
    (error : Option String) (result : Option ResultsMap)
    (now : Int) : DB :=
  { db with tasks := db.tasks.map (fun t =>
      if t.task_id == task_id then updateRow status error result now t else t) }

/-- `check_published` (`src/db.py` lines 195–210). -/
def check_published (db : DB) (task_id platform : String) : Option Receipt :=
  db.published.find? (fun r => r.task_id == task_id && r.platform == platform)

/-- `mark_published` (`src/db.py` lines 213–233): `INSERT OR IGNORE` into
`published_posts`, which silently does nothing when a row with the same
`(task_id, platform)` unique key exists. -/
def mark_published (db : DB) (task_id platform : String)
    (post_id post_url : Option String) (now : Int) : DB :=
  if (check_published db task_id platform).isSome then db
  else { db with published :=
          db.published ++ [⟨task_id, platform, post_id, post_url, now⟩] }

/-- `cancel_task` (`src/db.py` lines 236–262).  Returns the result string and
the store after the call. -/
def cancel_task (db : DB) (task_id : String) : String × DB :=
  match get_task db task_id with
  | none => ("not_found", db)
  | some t =>
    if t.status == "completed" || t.status == "failed" || t.status == "partial_failure" then
      ("already_executed", db)
    else if t.status == "running" then
      ("already_executed", db)
    else
      ("cancelled", { db with tasks := db.tasks.map (fun t' =>
          if t'.task_id == task_id then { t' with status := "cancelled" } else t') })

/-- The statuses `('completed', 'failed', 'cancelled', 'partial_failure')`
used by the cleanup query. -/
def terminalStatus (s : String) : Bool :=
  s == "completed" || s == "failed" || s == "cancelled" || s == "partial_failure"

/-- `cleanup_old_content` (`src/db.py` lines 293–364), translated statement
by statement.  `cutoff = now - days`; `safe_content_ids` is the SQL join:
content ids having AT LEAST ONE referencing task that is terminal and older
than the cutoff; contents and then tasks are deleted; only AFTER the task
rows are deleted does the code `SELECT task_id FROM scheduled_tasks` to find
the receipts to delete, so `task_id_list` is computed on the post-deletion
task table.  Returns `((contents, tasks, published), db')`. -/
def cleanup_old_content (db : DB) (days : Int) (now : Int) :
    (Nat × Nat × Nat) × DB :=
  let cutoff := now - days
  let content_ids := (db.contents.filter (fun tc =>
      db.tasks.any (fun st =>
        st.content_id == tc.content_id && terminalStatus st.status &&
        decide (st.created_at < cutoff)))).map (·.content_id)
  if content_ids.isEmpty then ((0, 0, 0), db)
  else
    let contents' := db.contents.filter (fun c => !content_ids.contains c.content_id)
    let deleted_contents := db.contents.length - contents'.length
    let tasks' := db.tasks.filter (fun t => !content_ids.contains t.content_id)
    let deleted_tasks := db.tasks.length - tasks'.length
    let task_id_list := (tasks'.filter
        (fun t => content_ids.contains t.content_id)).map (·.task_id)
    if task_id_list.isEmpty then
      ((deleted_contents, deleted_tasks, 0),
       { db with contents := contents', tasks := tasks' })
    else
      let published' := db.published.filter
        (fun r => !task_id_list.contains r.task_id)
      ((deleted_contents, deleted_tasks, db.published.length - published'.length),
       { db with contents := contents', tasks := tasks', published := published' })

/-! ## The Publish Executor (`src/tasks.py`, `publish_scheduled_task`) -/

/-- The behaviour of the external Publisher Capability for one platform:
what `create_publisher(platform, config)` does, and what the resulting
publisher's `validate_content` and `publish` do on a payload.  `Except.error`
is an exception escaping the call. -/
structure PlatformEnv where
  create : Except String Unit
  validate : String → Except String Bool
  publish : String → Except String PubResult

/-- The external environment: one `PlatformEnv` per platform name (the
`configs` argument is fixed into it). -/
abbrev Env := String → PlatformEnv

/-- A Publisher Capability invocation recorded by the executor model. -/
inductive CallKind where
  | validate
  | publish
  deriving Repr, DecidableEq

/-- Call-log entry: which capability was invoked for which platform. -/
abbrev CallEntry := String × CallKind

/-- Python dict assignment `m[k] = v`: replaces the value of an existing key
in place, otherwise appends. -/
def setA (m : ResultsMap) (k : String) (v : POutcome) : ResultsMap :=
  match m with
  | [] => [(k, v)]
  | (k', v') :: rest =>
    if k' == k then (k, v) :: rest else (k', v') :: setA rest k v

/-- Python dict lookup `m.get(k)`. -/
def lookupA {α : Type} (m : List (String × α)) (k : String) : Option α :=
  (m.find? (fun e => e.1 == k)).map (·.2)

/-- The body of one iteration of the executor's platform loop
(`src/tasks.py` lines 62–116): idempotency check, per-platform content
lookup (with Python's falsy test), `create_publisher`, `validate_content`,
`publish`, and the idempotent `mark_published` on success; exceptions from
the publisher are caught into a failure outcome.  Returns the store after
the iteration, the `results[platform]` entry, and the capability calls
made. -/
def publishStep (env : Env) (contents : List (String × String))
    (task_id : String) (now : Int) (db : DB) (platform : String) :
    DB × POutcome × List CallEntry :=
  match check_published db task_id platform with
  | some existing => (db, .skipped existing.post_id existing.post_url, [])
  | none =>
    match lookupA contents platform with
    | none => (db, .noContent, [])
    | some c =>
      if c == "" then (db, .noContent, [])
      else
        match (env platform).create with
        | .error e => (db, .exn e, [])
        | .ok () =>
          match (env platform).validate c with
          | .error e => (db, .exn e, [(platform, .validate)])
          | .ok false => (db, .validationFailed, [(platform, .validate)])
          | .ok true =>
            match (env platform).publish c with
            | .error e => (db, .exn e, [(platform, .validate), (platform, .publish)])
            | .ok r =>
              (if r.success then
                 mark_published db task_id platform r.post_id r.url now
               else db,
               .published r,
               [(platform, .validate), (platform, .publish)])

/-- The executor's platform loop (`src/tasks.py` lines 62–116) as a left
fold accumulating the store, the `results` dict and the call log. -/
def pubLoop (env : Env) (contents : List (String × String))
    (task_id : String) (now : Int) :
    DB → ResultsMap → List CallEntry → List String →
    DB × ResultsMap × List CallEntry
  | db, acc, calls, [] => (db, acc, calls)
  | db, acc, calls, p :: rest =>
    let s := publishStep env contents task_id now db p
    pubLoop env contents task_id now s.1 (setA acc p s.2.1)
      (calls ++ s.2.2) rest

/-- The aggregation of `src/tasks.py` lines 118–127: `completed` if
`all(...)`, else `partial_failure` if `any(...)`, else `failed`. -/
def aggStatus (results : ResultsMap) : String :=
  if results.all (fun pr => pr.2.success) then "completed"
  else if results.any (fun pr => pr.2.success) then "partial_failure"
  else "failed"

/-- The value returned by `publish_scheduled_task`. -/
inductive ExecOutcome where
  /-- early return `{"status": "cancelled", ...}` (`src/tasks.py` lines 36–42). -/
  | cancelled
  /-- early return `{"success": False, "error": "Content not found", ...}`
  (`src/tasks.py` lines 45–52). -/
  | contentMissing
  /-- normal return `{"success": all_success, "status": status,
  "results": results, ...}` (`src/tasks.py` lines 136–141). -/
  | executed (success : Bool) (status : String) (results : ResultsMap)
  deriving Repr, DecidableEq

/-- `publish_scheduled_task` (`src/tasks.py` lines 9–155): the cancelled
check, the content load with Python's falsy test, the transition to
`running`, the platform loop, the aggregation, and the persisting of the
aggregate status together with `str(results)`.  Returns the outcome, the
store after the call, and the log of Publisher Capability calls. -/
def publish_scheduled_task (env : Env) (db : DB)
    (task_id content_id : String) (platforms : List String) (now : Int) :
    ExecOutcome × DB × List CallEntry :=
  let earlyCancelled : Bool :=
    match get_task db task_id with
    | some t => t.status == "cancelled"
    | none => false
  if earlyCancelled then (.cancelled, db, [])
  else
    match get_content db content_id with
    | none =>
      (.contentMissing,
       update_task_status db task_id "failed"
         (some "Content not found in database") none now, [])
    | some contents =>
      if contents.isEmpty then
        (.contentMissing,
         update_task_status db task_id "failed"
           (some "Content not found in database") none now, [])
      else
        let db1 := update_task_status db task_id "running" none none now
        let step := pubLoop env contents task_id now db1 [] [] platforms
        let results := step.2.1
        let all_success := results.all (fun pr => pr.2.success)
        let status := aggStatus results
        let db3 := update_task_status step.1 task_id status none
          (some results) now
        (.executed all_success status results, db3, step.2.2)


/-! ## Derived notions used by the theorems -/

/-- Whether a `(task_id, platform)` publish receipt exists. -/
def hasR (db : DB) (task_id platform : String) : Bool :=
  (check_published db task_id platform).isSome

/-- Whether, for a platform with no prior receipt, one pass of the
executor's loop body would publish successfully: the platform has non-falsy
content, `create_publisher` and `validate_content` succeed, and `publish`
returns `success=True`.  This mirrors the branch structure of
`publishStep`. -/
def stepSucceeds (env : Env) (contents : List (String × String))
    (platform : String) : Bool :=
  match lookupA contents platform with
  | none => false
  | some c =>
    if c == "" then false
    else
      match (env platform).create with
      | .error _ => false
      | .ok () =>
        match (env platform).validate c with
        | .error _ => false
        | .ok false => false
        | .ok true =>
          match (env platform).publish c with
          | .error _ => false
          | .ok r => r.success


/-- Whether an executor outcome is the normal (loop-completing) return. -/
def ExecOutcome.isExecuted : ExecOutcome → Bool
  | .executed _ _ _ => true
  | _ => false

/-- The `results` dict carried by a normal executor return. -/
def ExecOutcome.resultsMap : ExecOutcome → ResultsMap
  | .executed _ _ res => res
  | _ => []

/-! ## Concrete stores and environments used by witnesses and
counterexamples -/

/-- An environment whose every platform publishes successfully. -/
def envOk : Env := fun _ =>
  { create := .ok ()
    validate := fun _ => .ok true
    publish := fun _ => .ok { success := true, post_id := some "p1", url := some "u1" } }

/-- A freshly scheduled task `t1` over content `c1`. -/
def taskW : Task :=
  { task_id := "t1", celery_task_id := none, content_id := "c1",
    platforms := ["reddit"], scheduled_time := 50, status := "scheduled",
    created_at := 0, started_at := none, finished_at := none,
    error := none, result := none }

/-- A store holding `taskW` and its content row. -/
def dbW : DB :=
  { tasks := [taskW]
    contents := [⟨"c1", [("reddit", "hello")], 0⟩]
    published := [] }

/-- A store holding only the content row (no task rows at all). -/
def dbNoTask : DB :=
  { tasks := [], contents := [⟨"c1", [("reddit", "hello")], 0⟩], published := [] }

/-- A store holding `taskW` but no content rows. -/
def dbNoContent : DB :=
  { tasks := [taskW], contents := [], published := [] }

/-- A store whose only task is already cancelled. -/
def dbCancelled : DB :=
  { tasks := [{ taskW with status := "cancelled" }]
    contents := [⟨"c1", [("reddit", "hello")], 0⟩]
    published := [] }

/-- Failing input for the retention-safety claim: content `c1` is referenced
both by an old completed task and by a still-`scheduled` task. -/
def dbRetention : DB :=
  { tasks := [{ taskW with task_id := "tOld", status := "completed", created_at := 0 },
              { taskW with task_id := "tSched", status := "scheduled", created_at := 0,
                           scheduled_time := 500 }]
    contents := [⟨"c1", [("reddit", "hello")], 0⟩]
    published := [] }

/-- Failing input for the receipt-deletion claim: one old completed task with
a publish receipt. -/
def dbReceipts : DB :=
  { tasks := [{ taskW with task_id := "tOld", status := "completed", created_at := 0 }]
    contents := [⟨"c1", [("reddit", "hello")], 0⟩]
    published := [⟨"tOld", "reddit", some "p1", some "u1", 1⟩] }



/-! ## Basic lemmas about the store operations -/

theorem update_task_status_contents (db : DB) (tid st : String) (e : Option String)
    (r : Option ResultsMap) (now : Int) :
    (update_task_status db tid st e r now).contents = db.contents := rfl

theorem update_task_status_published (db : DB) (tid st : String) (e : Option String)
    (r : Option ResultsMap) (now : Int) :
    (update_task_status db tid st e r now).published = db.published := rfl

theorem mark_published_tasks (db : DB) (tid p : String) (pi pu : Option String)
    (now : Int) : (mark_published db tid p pi pu now).tasks = db.tasks := by
  unfold mark_published; split <;> rfl

theorem mark_published_contents (db : DB) (tid p : String) (pi pu : Option String)
    (now : Int) : (mark_published db tid p pi pu now).contents = db.contents := by
  unfold mark_published; split <;> rfl

theorem updateRow_task_id (st : String) (e : Option String) (r : Option ResultsMap)
    (now : Int) (t : Task) : (updateRow st e r now t).task_id = t.task_id := by
  unfold updateRow
  split
  · rfl
  · split <;> rfl

theorem updateRow_status (st : String) (e : Option String) (r : Option ResultsMap)
    (now : Int) (t : Task) : (updateRow st e r now t).status = st := by
  unfold updateRow
  split
  · rfl
  · split <;> rfl

theorem find?_map_of_task_id_invariant (g : Task → Task)
    (hg : ∀ t, (g t).task_id = t.task_id) (l : List Task) (x : String) :
    (l.map g).find? (fun t => t.task_id == x) =
      ((l.find? (fun t => t.task_id == x)).map g) := by
  induction l with
  | nil => rfl
  | cons a l ih =>
    by_cases h : a.task_id = x
    · simp [List.find?_cons, hg, h]
    · simp [List.find?_cons, hg, h, ih]

theorem get_task_update_self (db : DB) (tid st : String) (e : Option String)
    (r : Option ResultsMap) (now : Int) :
    get_task (update_task_status db tid st e r now) tid =
      (get_task db tid).map (updateRow st e r now) := by
  unfold get_task update_task_status
  rw [show (db.tasks.map (fun t => if t.task_id == tid then updateRow st e r now t else t)) =
        (db.tasks.map (fun t => if t.task_id == tid then updateRow st e r now t else t)) from rfl]
  rw [find?_map_of_task_id_invariant
        (fun t => if t.task_id == tid then updateRow st e r now t else t)
        (fun t => by by_cases h : t.task_id = tid <;> simp [h, updateRow_task_id])]
  cases hf : db.tasks.find? (fun t => t.task_id == tid) with
  | none => rfl
  | some t =>
    have hp := List.find?_some hf
    simp only [beq_iff_eq] at hp
    simp [hp]

theorem update_task_status_of_no_row (db : DB) (tid st : String) (e : Option String)
    (r : Option ResultsMap) (now : Int) (h : get_task db tid = none) :
    update_task_status db tid st e r now = db := by
  unfold update_task_status
  have hall := List.find?_eq_none.mp h
  have : db.tasks.map (fun t => if t.task_id == tid then updateRow st e r now t else t)
      = db.tasks := by
    rw [show db.tasks = db.tasks.map id by simp]
    rw [List.map_map]
    refine List.map_congr_left (fun t ht => ?_)
    have := hall t (by simpa using ht)
    simp_all
  rw [this]


theorem updateRow_running (e : Option String) (r : Option ResultsMap) (now : Int)
    (t : Task) : updateRow "running" e r now t =
      { t with status := "running", started_at := some now } := rfl

theorem updateRow_terminal3 (st : String) (e : Option String) (r : Option ResultsMap)
    (now : Int) (t : Task)
    (h : st = "completed" ∨ st = "failed" ∨ st = "partial_failure") :
    updateRow st e r now t =
      { t with status := st, error := e, result := r, finished_at := some now } := by
  rcases h with h | h | h <;> subst h <;> rfl

theorem updateRow_cancelled (e : Option String) (r : Option ResultsMap) (now : Int)
    (t : Task) : updateRow "cancelled" e r now t =
      { t with status := "cancelled", error := e } := rfl

/-! ## Claim theorems -/

/-- C8: storing content under an already-used `content_id` fails with the
duplicate-key error, and `get_content` still returns the originally stored
payload (the failed `INSERT` leaves the store unchanged, which the
`Except.error` return makes explicit: no new store value is produced). -/
theorem store_content_write_once (db : DB) (cid : String)
    (p : List (String × String)) (h : get_content db cid = some p)
    (p2 : List (String × String)) (now : Int) :
    store_content db cid p2 now =
      Except.error "UNIQUE constraint failed: task_contents.content_id" ∧
    get_content db cid = some p := by
  refine ⟨?_, h⟩
  unfold store_content
  have hany : db.contents.any (fun c => c.content_id == cid) = true := by
    unfold get_content at h
    cases hf : db.contents.find? (fun c => c.content_id == cid) with
    | none => rw [hf] at h; simp at h
    | some c =>
      refine List.any_eq_true.mpr ⟨c, List.mem_of_find?_eq_some hf, ?_⟩
      simpa using List.find?_some hf
  simp [hany]

/-- Witness for C8 at a concrete store. -/
theorem store_content_write_once_witness :
    store_content dbW "c1" [("x", "y")] 9 =
      Except.error "UNIQUE constraint failed: task_contents.content_id" ∧
    get_content dbW "c1" = some [("reddit", "hello")] :=
  store_content_write_once dbW "c1" [("reddit", "hello")] (by rfl) [("x", "y")] 9

/-- C5 counterexample: transitioning a task into the terminal status
`cancelled` does NOT set `finished_at` — `update_task_status` only sets
`finished_at` for `completed`/`failed`/`partial_failure`; `cancelled` falls
into the else branch that writes only `status` and `error`. -/
theorem update_cancelled_no_finished_at :
    (get_task (update_task_status dbW "t1" "cancelled" none none 7) "t1").map
        (fun t => (t.status, t.finished_at)) = some ("cancelled", none) := by rfl

/-- C5 (amended): `update_task_status` sets `started_at` when the new status
is `running`, sets `finished_at` when the new status is `completed`, `failed`
or `partial_failure`, and for `cancelled` (the else branch) writes only
`status` and `error`, leaving `started_at` and `finished_at` untouched. -/
theorem update_task_status_timestamps (db : DB) (tid st : String)
    (e : Option String) (r : Option ResultsMap) (now : Int) (t : Task)
    (ht : get_task db tid = some t) :
    (st = "running" →
      get_task (update_task_status db tid st e r now) tid =
        some { t with status := "running", started_at := some now }) ∧
    (st = "completed" ∨ st = "failed" ∨ st = "partial_failure" →
      get_task (update_task_status db tid st e r now) tid =
        some { t with status := st, error := e, result := r,
                      finished_at := some now }) ∧
    (st = "cancelled" →
      get_task (update_task_status db tid st e r now) tid =
        some { t with status := "cancelled", error := e }) := by
  refine ⟨?_, ?_, ?_⟩ <;> intro hst
  · subst hst
    rw [get_task_update_self, ht]
    exact congrArg some (updateRow_running e r now t)
  · rw [get_task_update_self, ht]
    exact congrArg some (updateRow_terminal3 st e r now t hst)
  · subst hst
    rw [get_task_update_self, ht]
    exact congrArg some (updateRow_cancelled e r now t)

/-- Witness for C5 (amended) at a concrete store: the `completed` branch. -/
theorem update_task_status_timestamps_witness :
    get_task (update_task_status dbW "t1" "completed" none none 7) "t1" =
      some { taskW with status := "completed", error := none, result := none,
                        finished_at := some 7 } :=
  (update_task_status_timestamps dbW "t1" "completed" none none 7 taskW
      (by rfl)).2.1 (Or.inl rfl)

/-- C4 counterexample: cancelling a task whose status is already the
terminal status `cancelled` is NOT refused with `already_executed`; the code
checks only `completed`/`failed`/`partial_failure`/`running`, so it returns
`cancelled` again. -/
theorem cancel_cancelled_task_not_refused :
    (get_task dbCancelled "t1").map (fun t => t.status) = some "cancelled" ∧
    (cancel_task dbCancelled "t1").1 = "cancelled" ∧
    (cancel_task dbCancelled "t1").1 ≠ "already_executed" := by
  refine ⟨by rfl, by rfl, by decide⟩

/-- C4 (amended): `cancel_task` returns `not_found` when no row exists,
refuses with `already_executed` (store unchanged) when the status is
`completed`, `failed`, `partial_failure` or `running`, and otherwise — in
particular for `scheduled`, but also for an already-`cancelled` task — sets
the status to `cancelled` and returns `cancelled`. -/
theorem cancel_task_characterization (db : DB) (tid : String) :
    (get_task db tid = none → cancel_task db tid = ("not_found", db)) ∧
    (∀ t, get_task db tid = some t →
      t.status = "completed" ∨ t.status = "failed" ∨
        t.status = "partial_failure" ∨ t.status = "running" →
      cancel_task db tid = ("already_executed", db)) ∧
    (∀ t, get_task db tid = some t →
      t.status ≠ "completed" → t.status ≠ "failed" →
      t.status ≠ "partial_failure" → t.status ≠ "running" →
      cancel_task db tid = ("cancelled",
        { db with tasks := db.tasks.map (fun t' =>
            if t'.task_id == tid then { t' with status := "cancelled" }
            else t') })) := by
  refine ⟨?_, ?_, ?_⟩
  · intro h
    unfold cancel_task
    rw [h]
  · intro t ht hst
    unfold cancel_task
    rw [ht]
    rcases hst with h | h | h | h <;> simp [h]
  · intro t ht h1 h2 h3 h4
    unfold cancel_task
    rw [ht]
    simp [h1, h2, h3, h4]

/-- Witness for C4 (amended) at a concrete store: cancelling a `scheduled`
task. -/
theorem cancel_task_characterization_witness :
    cancel_task dbW "t1" = ("cancelled",
      { dbW with tasks := dbW.tasks.map (fun t' =>
          if t'.task_id == "t1" then { t' with status := "cancelled" }
          else t') }) :=
  (cancel_task_characterization dbW "t1").2.2 taskW (by rfl)
    (by decide) (by decide) (by decide) (by decide)


/-- `cleanup_old_content` can never delete a publish receipt: it selects the
task ids whose receipts to delete from the task table AFTER having deleted
the task rows, so the selection is always empty and the reported
`published` count is always 0. -/
theorem cleanup_never_deletes_receipts (db : DB) (days now : Int) :
    (cleanup_old_content db days now).2.published = db.published ∧
    (cleanup_old_content db days now).1.2.2 = 0 := by
  simp only [cleanup_old_content]
  split
  · exact ⟨rfl, rfl⟩
  · rw [List.filter_filter]
    simp

/-- C1 (code bug): the cleanup query joins `task_contents` against
`scheduled_tasks` and keeps every content id having AT LEAST ONE old
terminal referencing task, instead of requiring ALL referencing tasks to be
terminal.  In `dbRetention`, content `c1` is referenced by the
still-`scheduled` task `tSched`, yet cleanup deletes the `c1` content row
(and even the scheduled task row itself). -/
theorem cleanup_deletes_scheduled_content :
    (∃ t ∈ dbRetention.tasks, t.status = "scheduled" ∧ t.content_id = "c1") ∧
    (∃ c ∈ dbRetention.contents, c.content_id = "c1") ∧
    (cleanup_old_content dbRetention 10 100).2.contents = [] ∧
    (cleanup_old_content dbRetention 10 100).2.tasks = [] := by decide

/-- C6 (code bug): in `dbReceipts` the only task is old and `completed` and
has one publish receipt; cleanup deletes the content and the task but the
receipt row survives (the `SELECT task_id` used to find receipts runs after
the task rows were already deleted), and the returned counts report
`published = 0`. -/
theorem cleanup_receipt_survives_task_deletion :
    (cleanup_old_content dbReceipts 30 100).2.tasks = [] ∧
    (cleanup_old_content dbReceipts 30 100).2.published =
      [⟨"tOld", "reddit", some "p1", some "u1", 1⟩] ∧
    (cleanup_old_content dbReceipts 30 100).1 = (1, 1, 0) := by decide


/-- When the task is not cancelled and the content row is missing,
`publish_scheduled_task` reduces to the fatal content-not-found path. -/
theorem publish_content_missing_expand (env : Env) (db : DB) (tid cid : String)
    (ps : List String) (now : Int)
    (ht : ∀ t ∈ get_task db tid, t.status ≠ "cancelled")
    (hc : get_content db cid = none) :
    publish_scheduled_task env db tid cid ps now =
      (.contentMissing,
       update_task_status db tid "failed"
         (some "Content not found in database") none now, []) := by
  simp only [publish_scheduled_task]
  cases hg : get_task db tid with
  | none => simp [hg, hc]
  | some t =>
    have hst := ht t (by simp [hg, Option.mem_def])
    simp [hg, hc, hst]

/-- When the task is not cancelled and the content row is present and
non-empty, `publish_scheduled_task` reduces to the running transition, the
platform loop, and the aggregate terminal transition. -/
theorem publish_executed_expand (env : Env) (db : DB) (tid cid : String)
    (ps : List String) (now : Int) (cs : List (String × String))
    (ht : ∀ t ∈ get_task db tid, t.status ≠ "cancelled")
    (hc : get_content db cid = some cs) (hcs : cs ≠ []) :
    publish_scheduled_task env db tid cid ps now =
      (.executed
          ((pubLoop env cs tid now (update_task_status db tid "running" none none now) [] [] ps).2.1.all
            (fun pr => pr.2.success))
          (aggStatus (pubLoop env cs tid now (update_task_status db tid "running" none none now) [] [] ps).2.1)
          ((pubLoop env cs tid now (update_task_status db tid "running" none none now) [] [] ps).2.1),
        update_task_status
          (pubLoop env cs tid now (update_task_status db tid "running" none none now) [] [] ps).1
          tid
          (aggStatus (pubLoop env cs tid now (update_task_status db tid "running" none none now) [] [] ps).2.1)
          none
          (some (pubLoop env cs tid now (update_task_status db tid "running" none none now) [] [] ps).2.1)
          now,
        (pubLoop env cs tid now (update_task_status db tid "running" none none now) [] [] ps).2.2) := by
  simp only [publish_scheduled_task]
  cases hg : get_task db tid with
  | none => simp [hg, hc, hcs, aggStatus]
  | some t =>
    have hst := ht t (by simp [hg, Option.mem_def])
    simp [hg, hc, hcs, hst, aggStatus]

/-- C7: when the Content row for the task's content id is absent the
executor returns the fatal path: it makes zero Publisher Capability calls,
writes no receipts, and transitions the task row to `failed` with the
content-not-found error. -/
theorem executor_missing_content_fatal (env : Env) (db : DB) (tid cid : String)
    (ps : List String) (now : Int)
    (ht : ∀ t ∈ get_task db tid, t.status ≠ "cancelled")
    (hc : get_content db cid = none) :
    (publish_scheduled_task env db tid cid ps now).1 = .contentMissing ∧
    (publish_scheduled_task env db tid cid ps now).2.2 = [] ∧
    (publish_scheduled_task env db tid cid ps now).2.1.published = db.published ∧
    ∀ t, get_task (publish_scheduled_task env db tid cid ps now).2.1 tid = some t →
      t.status = "failed" ∧ t.error = some "Content not found in database" := by
  rw [publish_content_missing_expand env db tid cid ps now ht hc]
  refine ⟨rfl, rfl, rfl, ?_⟩
  intro t hgt
  rw [get_task_update_self] at hgt
  cases hg0 : get_task db tid with
  | none => rw [hg0] at hgt; simp at hgt
  | some t0 =>
    rw [hg0] at hgt
    have ht0 : t = updateRow "failed" (some "Content not found in database") none now t0 := by
      simpa using hgt.symm
    subst ht0
    rw [updateRow_terminal3 _ _ _ _ _ (Or.inr (Or.inl rfl))]
    exact ⟨rfl, rfl⟩

/-- Witness for C7 at a concrete store with a task but no content row. -/
theorem executor_missing_content_fatal_witness :
    (publish_scheduled_task envOk dbNoContent "t1" "c1" ["reddit"] 5).1 = .contentMissing ∧
    (publish_scheduled_task envOk dbNoContent "t1" "c1" ["reddit"] 5).2.2 = [] := by
  have h := executor_missing_content_fatal envOk dbNoContent "t1" "c1" ["reddit"] 5
    (by intro t htm
        have h2 : some taskW = some t := htm
        cases Option.some.inj h2
        decide)
    (by rfl)
  exact ⟨h.1, h.2.1⟩

/-- A receipt present after `mark_published` was already present or belongs
to the inserted `(task_id, platform)` pair. -/
theorem mark_published_mem (db : DB) (tid p : String) (pi pu : Option String)
    (now : Int) (rc : Receipt)
    (h : rc ∈ (mark_published db tid p pi pu now).published) :
    rc ∈ db.published ∨ rc.task_id = tid := by
  unfold mark_published at h
  split at h
  · exact Or.inl h
  · simp only [List.mem_append, List.mem_singleton] at h
    rcases h with h | h
    · exact Or.inl h
    · subst h; exact Or.inr rfl

/-- One loop iteration only ever adds receipts for the executed task id. -/
theorem publishStep_published_mem (env : Env) (cs : List (String × String))
    (tid : String) (now : Int) (db : DB) (p : String) (rc : Receipt)
    (h : rc ∈ (publishStep env cs tid now db p).1.published) :
    rc ∈ db.published ∨ rc.task_id = tid := by
  unfold publishStep at h
  repeat' split at h
  all_goals first
    | exact Or.inl h
    | exact mark_published_mem db tid p _ _ now rc h



/-- The loop body never touches the task table. -/
theorem publishStep_tasks (env : Env) (cs : List (String × String))
    (tid : String) (now : Int) (db : DB) (p : String) :
    (publishStep env cs tid now db p).1.tasks = db.tasks := by
  unfold publishStep
  repeat' split
  all_goals first | rfl | exact mark_published_tasks db tid p _ _ now

/-- The loop body never touches the content table. -/
theorem publishStep_contents (env : Env) (cs : List (String × String))
    (tid : String) (now : Int) (db : DB) (p : String) :
    (publishStep env cs tid now db p).1.contents = db.contents := by
  unfold publishStep
  repeat' split
  all_goals first | rfl | exact mark_published_contents db tid p _ _ now

/-- The platform loop never touches the task table. -/
theorem pubLoop_tasks (env : Env) (cs : List (String × String))
    (tid : String) (now : Int) (ps : List String) :
    ∀ db acc calls, (pubLoop env cs tid now db acc calls ps).1.tasks = db.tasks := by
  induction ps with
  | nil => intro db acc calls; rfl
  | cons p rest ih =>
    intro db acc calls
    simp only [pubLoop]
    rw [ih, publishStep_tasks]

/-- The platform loop never touches the content table. -/
theorem pubLoop_contents (env : Env) (cs : List (String × String))
    (tid : String) (now : Int) (ps : List String) :
    ∀ db acc calls, (pubLoop env cs tid now db acc calls ps).1.contents = db.contents := by
  induction ps with
  | nil => intro db acc calls; rfl
  | cons p rest ih =>
    intro db acc calls
    simp only [pubLoop]
    rw [ih, publishStep_contents]

/-- The platform loop only ever adds receipts for the executed task id. -/
theorem pubLoop_published_mem (env : Env) (cs : List (String × String))
    (tid : String) (now : Int) (ps : List String) :
    ∀ db acc calls rc, rc ∈ (pubLoop env cs tid now db acc calls ps).1.published →
      rc ∈ db.published ∨ rc.task_id = tid := by
  induction ps with
  | nil => intro db acc calls rc h; exact Or.inl h
  | cons p rest ih =>
    intro db acc calls rc h
    simp only [pubLoop] at h
    rcases ih _ _ _ rc h with h2 | h2
    · exact publishStep_published_mem env cs tid now db p rc h2
    · exact Or.inr h2

/-- `get_task` depends only on the task table. -/
theorem get_task_congr (db db2 : DB) (tid : String) (h : db.tasks = db2.tasks) :
    get_task db tid = get_task db2 tid := by
  unfold get_task; rw [h]

/-- C10: when no Task row exists for the given id, the executor does not
report not-found: it proceeds through the full per-platform loop (normal
`executed` outcome), every receipt it writes carries that task id, and its
status updates match no row, leaving the task table unchanged. -/
theorem executor_without_task_row (env : Env) (db : DB) (tid cid : String)
    (ps : List String) (now : Int) (cs : List (String × String))
    (hno : get_task db tid = none)
    (hc : get_content db cid = some cs) (hcs : cs ≠ []) :
    (publish_scheduled_task env db tid cid ps now).1.isExecuted = true ∧
    (publish_scheduled_task env db tid cid ps now).2.1.tasks = db.tasks ∧
    (∀ rc ∈ (publish_scheduled_task env db tid cid ps now).2.1.published,
      rc ∈ db.published ∨ rc.task_id = tid) := by
  have ht : ∀ t ∈ get_task db tid, t.status ≠ "cancelled" := by
    intro t htm
    rw [Option.mem_def, hno] at htm
    cases htm
  rw [publish_executed_expand env db tid cid ps now cs ht hc hcs]
  have h1 : update_task_status db tid "running" none none now = db :=
    update_task_status_of_no_row db tid "running" none none now hno
  refine ⟨rfl, ?_, ?_⟩
  · show (update_task_status _ tid _ none _ now).tasks = db.tasks
    have hlt : (pubLoop env cs tid now
        (update_task_status db tid "running" none none now) [] [] ps).1.tasks = db.tasks := by
      rw [pubLoop_tasks, h1]
    have hnone : get_task (pubLoop env cs tid now
        (update_task_status db tid "running" none none now) [] [] ps).1 tid = none := by
      rw [get_task_congr _ db tid hlt]; exact hno
    rw [update_task_status_of_no_row _ tid _ none _ now hnone, hlt]
  · intro rc hrc
    show rc ∈ db.published ∨ rc.task_id = tid
    rw [update_task_status_published] at hrc
    rcases pubLoop_published_mem env cs tid now ps _ _ _ rc hrc with h2 | h2
    · rw [h1] at h2; exact Or.inl h2
    · exact Or.inr h2

/-- Witness for C10 at a concrete store with no task rows. -/
theorem executor_without_task_row_witness :
    (publish_scheduled_task envOk dbNoTask "t9" "c1" ["reddit"] 5).1.isExecuted = true ∧
    (publish_scheduled_task envOk dbNoTask "t9" "c1" ["reddit"] 5).2.1.tasks = dbNoTask.tasks := by
  have h := executor_without_task_row envOk dbNoTask "t9" "c1" ["reddit"] 5
    [("reddit", "hello")] (by rfl) (by rfl) (by decide)
  exact ⟨h.1, h.2.1⟩


/-- The aggregate status is always one of the three terminal statuses. -/
theorem aggStatus_cases (res : ResultsMap) :
    aggStatus res = "completed" ∨ aggStatus res = "failed" ∨
      aggStatus res = "partial_failure" := by
  unfold aggStatus
  split
  · exact Or.inl rfl
  · split
    · exact Or.inr (Or.inr rfl)
    · exact Or.inr (Or.inl rfl)

/-- C3: the executor's aggregated terminal status is `completed` when every
recorded platform outcome succeeded, `partial_failure` when at least one
succeeded and at least one failed, and `failed` when none succeeded (some
outcome being recorded); the task row is persisted with that status and the
full per-platform summary. -/
theorem publish_status_aggregation (env : Env) (db : DB) (tid cid : String)
    (ps : List String) (now : Int) (cs : List (String × String))
    (ht : ∀ t ∈ get_task db tid, t.status ≠ "cancelled")
    (hc : get_content db cid = some cs) (hcs : cs ≠ []) :
    (publish_scheduled_task env db tid cid ps now).1.isExecuted = true ∧
    ∀ ok st res, (publish_scheduled_task env db tid cid ps now).1 = .executed ok st res →
      ((∀ pr ∈ res, pr.2.success = true) → st = "completed") ∧
      ((∃ pr ∈ res, pr.2.success = true) → (∃ pr ∈ res, pr.2.success = false) →
        st = "partial_failure") ∧
      (res ≠ [] → (∀ pr ∈ res, pr.2.success = false) → st = "failed") ∧
      (∀ t, get_task (publish_scheduled_task env db tid cid ps now).2.1 tid = some t →
        t.status = st ∧ t.result = some res) := by
  rw [publish_executed_expand env db tid cid ps now cs ht hc hcs]
  refine ⟨rfl, ?_⟩
  intro ok st res heq
  have hok : ok = ((pubLoop env cs tid now (update_task_status db tid "running" none none now) [] [] ps).2.1.all
      (fun pr => pr.2.success)) := by
    cases heq; rfl
  have hst : st = aggStatus res := by cases heq; rfl
  have hres : res = (pubLoop env cs tid now (update_task_status db tid "running" none none now) [] [] ps).2.1 := by
    cases heq; rfl
  refine ⟨?_, ?_, ?_, ?_⟩
  · intro hall
    rw [hst]
    unfold aggStatus
    rw [if_pos (List.all_eq_true.mpr hall)]
  · intro hs hf
    rw [hst]
    obtain ⟨pr, hmem, hpr⟩ := hf
    obtain ⟨pr2, hmem2, hpr2⟩ := hs
    have hnall : res.all (fun pr => pr.2.success) = false := by
      rw [List.all_eq_false]
      exact ⟨pr, hmem, by simp [hpr]⟩
    have hany : res.any (fun pr => pr.2.success) = true :=
      List.any_eq_true.mpr ⟨pr2, hmem2, hpr2⟩
    unfold aggStatus
    rw [hnall]
    simp [hany]
  · intro hne hallf
    rw [hst]
    have hnall : res.all (fun pr => pr.2.success) = false := by
      rw [List.all_eq_false]
      obtain ⟨pr, hmem⟩ := List.exists_mem_of_ne_nil res hne
      exact ⟨pr, hmem, by simp [hallf pr hmem]⟩
    have hnany : res.any (fun pr => pr.2.success) = false := by
      rw [List.any_eq_false]
      intro pr hmem
      simp [hallf pr hmem]
    unfold aggStatus
    rw [hnall]
    simp [hnany]
  · intro t hgt
    dsimp only at hgt
    rw [get_task_update_self] at hgt
    cases hg0 : get_task (pubLoop env cs tid now
        (update_task_status db tid "running" none none now) [] [] ps).1 tid with
    | none => rw [hg0] at hgt; simp at hgt
    | some t0 =>
      rw [hg0] at hgt
      have ht0 : t = updateRow (aggStatus res) none (some res) now t0 := by
        rw [hres]
        simpa using hgt.symm
      subst ht0
      rw [updateRow_terminal3 _ _ _ _ _ (aggStatus_cases res)]
      exact ⟨hst.symm, rfl⟩

/-- Witness for C3 at a concrete store and environment. -/
theorem publish_status_aggregation_witness :
    (publish_scheduled_task envOk dbW "t1" "c1" ["reddit"] 5).1.isExecuted = true :=
  (publish_status_aggregation envOk dbW "t1" "c1" ["reddit"] 5 [("reddit", "hello")]
    (by intro t htm
        have h2 : some taskW = some t := htm
        cases Option.some.inj h2
        decide)
    (by rfl) (by decide)).1



/-- Appending a task row with a fresh id makes `get_task` return it. -/
theorem get_task_append_fresh (db : DB) (tid : String)
    (hfresh : get_task db tid = none) (t : Task) (hid : t.task_id = tid) :
    get_task { db with tasks := db.tasks ++ [t] } tid = some t := by
  unfold get_task at hfresh ⊢
  rw [List.find?_append, hfresh]
  simp [hid]

/-- C9: an empty platforms list is rejected neither by `create_task` nor by
the executor; executing such a task records zero per-platform outcomes and
aggregates (vacuously) to `completed` with no Publisher Capability call. -/
theorem empty_platforms_ok (env : Env) (db : DB) (tid : String)
    (ctid : Option String) (cid : String) (stime now1 now2 : Int)
    (cs : List (String × String))
    (hfresh : get_task db tid = none)
    (hc : get_content db cid = some cs) (hcs : cs ≠ []) :
    (create_task db tid ctid cid [] stime now1).isOk = true ∧
    ∀ db', create_task db tid ctid cid [] stime now1 = .ok db' →
      (publish_scheduled_task env db' tid cid [] now2).1 = .executed true "completed" [] ∧
      (publish_scheduled_task env db' tid cid [] now2).2.2 = [] := by
  have hany : db.tasks.any (fun t => t.task_id == tid) = false := by
    rw [List.any_eq_false]
    intro t htm
    have h2 := List.find?_eq_none.mp hfresh t htm
    simpa using h2
  constructor
  · unfold create_task
    rw [hany]
    rfl
  · intro db' hdb'
    unfold create_task at hdb'
    rw [hany] at hdb'
    simp only [Bool.false_eq_true, if_false, Except.ok.injEq] at hdb'
    have hg2 := get_task_append_fresh db tid hfresh
      { task_id := tid, celery_task_id := ctid, content_id := cid,
        platforms := [], scheduled_time := stime, status := "scheduled",
        created_at := now1, started_at := none, finished_at := none,
        error := none, result := none } rfl
    rw [hdb'] at hg2
    have ht : ∀ t2 ∈ get_task db' tid, t2.status ≠ "cancelled" := by
      intro t2 htm
      rw [Option.mem_def, hg2] at htm
      cases Option.some.inj htm
      simp
    have hc2 : get_content db' cid = some cs := by
      rw [← hdb']
      exact hc
    rw [publish_executed_expand env db' tid cid [] now2 cs ht hc2 hcs]
    exact ⟨rfl, rfl⟩

/-- Witness for C9 at a concrete store. -/
theorem empty_platforms_ok_witness :
    (create_task dbNoTask "t9" none "c1" [] 50 1).isOk = true :=
  (empty_platforms_ok envOk dbNoTask "t9" none "c1" 50 1 2 [("reddit", "hello")]
    (by rfl) (by rfl) (by decide)).1


/-- Reading back the key just assigned in the results dict. -/
theorem lookupA_setA_self (m : ResultsMap) (k : String) (v : POutcome) :
    lookupA (setA m k v) k = some v := by
  induction m with
  | nil => simp [setA, lookupA]
  | cons e rest ih =>
    by_cases h : e.1 = k
    · simp [setA, h, lookupA]
    · simp only [setA]
      rw [if_neg (by simpa using h)]
      simpa [lookupA, List.find?_cons, h] using ih

/-- Assigning one key leaves the other keys of the results dict unchanged. -/
theorem lookupA_setA_ne (m : ResultsMap) (k q : String) (v : POutcome)
    (h : k ≠ q) :
    lookupA (setA m k v) q = lookupA m q := by
  induction m with
  | nil => simp [setA, lookupA, List.find?_cons, h]
  | cons e rest ih =>
    by_cases h2 : e.1 = k
    · simp [setA, h2, lookupA, List.find?_cons, h, Ne.symm h]
    · simp only [setA]
      rw [if_neg (by simpa using h2)]
      by_cases h3 : e.1 = q
      · simp [lookupA, List.find?_cons, h3]
      · simpa [lookupA, List.find?_cons, h3] using ih

/-- `hasR` depends only on the receipt table. -/
theorem hasR_congr (db db2 : DB) (tid q : String)
    (h : db.published = db2.published) : hasR db tid q = hasR db2 tid q := by
  unfold hasR check_published
  rw [h]

/-- `check_published` depends only on the receipt table. -/
theorem check_published_congr (db db2 : DB) (tid q : String)
    (h : db.published = db2.published) :
    check_published db tid q = check_published db2 tid q := by
  unfold check_published
  rw [h]

/-- `get_content` depends only on the content table. -/
theorem get_content_congr (db db2 : DB) (cid : String)
    (h : db.contents = db2.contents) : get_content db cid = get_content db2 cid := by
  unfold get_content
  rw [h]

/-- Appending a receipt row makes exactly its `(task_id, platform)` pair
present. -/
theorem hasR_append_receipt (db : DB) (tid p : String) (pi pu : Option String)
    (n : Int) (q : String) :
    hasR { db with published := db.published ++ [⟨tid, p, pi, pu, n⟩] } tid q =
      (hasR db tid q || q == p) := by
  unfold hasR check_published
  rw [List.find?_append]
  by_cases hqp : q = p
  · subst hqp
    simp
  · simp [Ne.symm hqp, hqp]

/-- With no prior receipt, `mark_published` appends the new receipt row. -/
theorem mark_published_of_not_exists (db : DB) (tid p : String)
    (pi pu : Option String) (now : Int) (h : check_published db tid p = none) :
    mark_published db tid p pi pu now =
      { db with published := db.published ++ [⟨tid, p, pi, pu, now⟩] } := by
  unfold mark_published
  rw [h]
  rfl

/-- With a receipt present, the loop body returns the idempotent skip: the
store untouched, a skipped-success outcome reusing the stored ids, and no
capability call. -/
theorem publishStep_of_receipt (env : Env) (cs : List (String × String))
    (tid : String) (now : Int) (db : DB) (p : String) (ex : Receipt)
    (h : check_published db tid p = some ex) :
    publishStep env cs tid now db p = (db, .skipped ex.post_id ex.post_url, []) := by
  unfold publishStep
  rw [h]



/-- When the step does not publish successfully it leaves the store
untouched. -/
theorem publishStep_db_of_not_succ (env : Env) (cs : List (String × String))
    (tid : String) (now : Int) (db : DB) (p : String)
    (h : stepSucceeds env cs p = false) :
    (publishStep env cs tid now db p).1 = db := by
  unfold publishStep
  unfold stepSucceeds at h
  repeat' split
  all_goals try rfl
  all_goals simp_all

/-- Every capability call made by one loop iteration names its platform. -/
theorem publishStep_calls_platform (env : Env) (cs : List (String × String))
    (tid : String) (now : Int) (db : DB) (p : String) :
    ∀ e ∈ (publishStep env cs tid now db p).2.2, e.1 = p := by
  unfold publishStep
  repeat' split
  all_goals intro e he
  all_goals simp only [List.mem_cons, List.not_mem_nil, or_false] at he
  all_goals first
    | exact he.elim
    | rw [he]
    | (rcases he with he | he <;> rw [he])



/-- A loop iteration whose success would already be receipted leaves the
store untouched. -/
theorem publishStep_fix (env : Env) (cs : List (String × String))
    (tid : String) (now : Int) (db : DB) (p : String)
    (h : stepSucceeds env cs p = true → hasR db tid p = true) :
    (publishStep env cs tid now db p).1 = db := by
  cases hs : stepSucceeds env cs p with
  | false => exact publishStep_db_of_not_succ env cs tid now db p hs
  | true =>
    have hr := h hs
    unfold hasR at hr
    rw [Option.isSome_iff_exists] at hr
    obtain ⟨ex, hex⟩ := hr
    rw [publishStep_of_receipt env cs tid now db p ex hex]

/-- A successful un-receipted iteration appends exactly one receipt for its
`(task_id, platform)` pair. -/
theorem publishStep_db_of_succ (env : Env) (cs : List (String × String))
    (tid : String) (now : Int) (db : DB) (p : String)
    (hr : check_published db tid p = none)
    (hs : stepSucceeds env cs p = true) :
    ∃ pi pu, (publishStep env cs tid now db p).1 =
      { db with published := db.published ++ [⟨tid, p, pi, pu, now⟩] } := by
  unfold publishStep
  unfold stepSucceeds at hs
  rw [hr]
  try dsimp only
  cases h2 : lookupA cs p with
  | none => rw [h2] at hs; exact absurd hs (by simp)
  | some c =>
    rw [h2] at hs
    try dsimp only at hs
    try dsimp only
    cases h3 : c == "" with
    | true => rw [h3] at hs; simp at hs
    | false =>
      rw [h3] at hs
      rw [if_neg (by simp)] at hs
      rw [if_neg (by simp)]
      cases h4 : (env p).create with
      | error e => rw [h4] at hs; simp at hs
      | ok u =>
        cases u
        rw [h4] at hs
        try dsimp only at hs
        try dsimp only
        cases h5 : (env p).validate c with
        | error e => rw [h5] at hs; simp at hs
        | ok b =>
          rw [h5] at hs
          try dsimp only at hs
          cases b with
          | false => simp at hs
          | true =>
            try dsimp only
            cases h6 : (env p).publish c with
            | error e => rw [h6] at hs; simp at hs
            | ok r =>
              rw [h6] at hs
              try dsimp only at hs
              refine ⟨r.post_id, r.url, ?_⟩
              try dsimp only
              rw [if_pos hs]
              rw [mark_published_of_not_exists db tid p r.post_id r.url now hr]



/-- Receipt presence after one loop iteration: unchanged except that the
processed platform becomes receipted exactly when the step succeeds. -/
theorem publishStep_hasR (env : Env) (cs : List (String × String))
    (tid : String) (now : Int) (db : DB) (p q : String) :
    hasR (publishStep env cs tid now db p).1 tid q =
      (hasR db tid q || (q == p && stepSucceeds env cs p)) := by
  cases hs : stepSucceeds env cs p with
  | false =>
    rw [publishStep_db_of_not_succ env cs tid now db p hs]
    simp
  | true =>
    cases hr : check_published db tid p with
    | some ex =>
      rw [publishStep_of_receipt env cs tid now db p ex hr]
      by_cases hqp : q = p
      · subst hqp
        have hq : hasR db tid q = true := by unfold hasR; rw [hr]; rfl
        simp [hq]
      · simp [hqp]
    | none =>
      obtain ⟨pi, pu, heq⟩ := publishStep_db_of_succ env cs tid now db p hr hs
      rw [heq, hasR_append_receipt]
      by_cases hqp : q = p
      · subst hqp; simp
      · simp [hqp, Ne.symm hqp]

/-- Receipt presence after the whole loop: a platform is receipted iff it
was before, or it is in the list and its publish succeeds. -/
theorem pubLoop_hasR (env : Env) (cs : List (String × String)) (tid : String)
    (now : Int) (ps : List String) (q : String) :
    ∀ db acc calls, hasR (pubLoop env cs tid now db acc calls ps).1 tid q =
      (hasR db tid q || (decide (q ∈ ps) && stepSucceeds env cs q)) := by
  induction ps with
  | nil => intro db acc calls; simp [pubLoop]
  | cons p rest ih =>
    intro db acc calls
    simp only [pubLoop]
    rw [ih, publishStep_hasR]
    by_cases hqp : q = p
    · subst hqp
      cases hsq : stepSucceeds env cs q <;>
        cases hdb : hasR db tid q <;>
          simp [hsq, hdb]
    · cases hsq : stepSucceeds env cs q <;>
        cases hdb : hasR db tid q <;>
          simp [hsq, hdb, hqp]

/-- If every platform whose publish would succeed is already receipted, the
loop leaves the store untouched, and every capability call it makes is for
an un-receipted platform. -/
theorem pubLoop_fix (env : Env) (cs : List (String × String)) (tid : String)
    (now : Int) (ps : List String) :
    ∀ db acc calls,
      (∀ p ∈ ps, stepSucceeds env cs p = true → hasR db tid p = true) →
      (pubLoop env cs tid now db acc calls ps).1 = db ∧
      (∀ e ∈ (pubLoop env cs tid now db acc calls ps).2.2,
        e ∈ calls ∨ hasR db tid e.1 = false) := by
  induction ps with
  | nil =>
    intro db acc calls H
    exact ⟨rfl, fun e he => Or.inl he⟩
  | cons p rest ih =>
    intro db acc calls H
    have hstep : (publishStep env cs tid now db p).1 = db :=
      publishStep_fix env cs tid now db p (H p (List.mem_cons_self p rest))
    simp only [pubLoop]
    rw [hstep]
    obtain ⟨h1, h2⟩ := ih db (setA acc p (publishStep env cs tid now db p).2.1)
      (calls ++ (publishStep env cs tid now db p).2.2)
      (fun p2 hp2 => H p2 (List.mem_cons_of_mem p hp2))
    refine ⟨h1, ?_⟩
    intro e he
    rcases h2 e he with hin | hfalse
    · rcases List.mem_append.mp hin with hin2 | hin2
      · exact Or.inl hin2
      · have hep := publishStep_calls_platform env cs tid now db p e hin2
        right
        rw [hep]
        cases hR : hasR db tid p with
        | false => rfl
        | true =>
          obtain ⟨ex, hex⟩ := Option.isSome_iff_exists.mp hR
          rw [publishStep_of_receipt env cs tid now db p ex hex] at hin2
          simp at hin2
    · exact Or.inr hfalse

/-- The loop writes only keys from its platform list into the results
dict. -/
theorem pubLoop_keys_other (env : Env) (cs : List (String × String))
    (tid : String) (now : Int) (ps : List String) (q : String) :
    ∀ db acc calls, q ∉ ps →
      lookupA (pubLoop env cs tid now db acc calls ps).2.1 q = lookupA acc q := by
  induction ps with
  | nil => intro db acc calls h; rfl
  | cons p rest ih =>
    intro db acc calls h
    have hx : ¬(q = p ∨ q ∈ rest) := fun hh => h (List.mem_cons.mpr hh)
    rw [not_or] at hx
    simp only [pubLoop]
    rw [ih _ _ _ hx.2, lookupA_setA_ne _ _ _ _ (fun hh => hx.1 hh.symm)]

/-- Under the same hypothesis as `pubLoop_fix`, a receipted platform of the
list ends up recorded as a skipped success reusing the stored receipt. -/
theorem pubLoop_skipped (env : Env) (cs : List (String × String)) (tid : String)
    (now : Int) (ps : List String) (q : String) :
    ∀ db acc calls ex,
      (∀ p ∈ ps, stepSucceeds env cs p = true → hasR db tid p = true) →
      q ∈ ps → check_published db tid q = some ex →
      lookupA (pubLoop env cs tid now db acc calls ps).2.1 q =
        some (.skipped ex.post_id ex.post_url) := by
  induction ps with
  | nil => intro db acc calls ex H hq hex; cases hq
  | cons p rest ih =>
    intro db acc calls ex H hq hex
    have hstep : (publishStep env cs tid now db p).1 = db :=
      publishStep_fix env cs tid now db p (H p (List.mem_cons_self p rest))
    simp only [pubLoop]
    rw [hstep]
    by_cases hqp : q = p
    · subst hqp
      have hstep2 : publishStep env cs tid now db q =
          (db, .skipped ex.post_id ex.post_url, []) :=
        publishStep_of_receipt env cs tid now db q ex hex
      rw [hstep2]
      by_cases hqrest : q ∈ rest
      · exact ih db _ _ ex (fun p2 hp2 => H p2 (List.mem_cons_of_mem _ hp2)) hqrest hex
      · rw [pubLoop_keys_other env cs tid now rest q db _ _ hqrest]
        exact lookupA_setA_self acc q _
    · have hqrest : q ∈ rest := by
        rcases List.mem_cons.mp hq with hh | hh
        · exact absurd hh hqp
        · exact hh
      exact ih db _ _ ex (fun p2 hp2 => H p2 (List.mem_cons_of_mem _ hp2)) hqrest hex



/-- C2: running `publish_scheduled_task` a second time for the same task
(same environment and arguments) leaves the receipt table exactly as after
the first run, performs no Publisher Capability call (validate or publish)
for any platform receipted by the first run, and records every receipted
platform of the list as a skipped success reusing the stored
`post_id`/`post_url`. -/
theorem publish_idempotent (env : Env) (db : DB) (tid cid : String)
    (ps : List String) (now1 now2 : Int) (cs : List (String × String))
    (ht : ∀ t ∈ get_task db tid, t.status ≠ "cancelled")
    (hc : get_content db cid = some cs) (hcs : cs ≠ []) :
    (publish_scheduled_task env (publish_scheduled_task env db tid cid ps now1).2.1
        tid cid ps now2).2.1.published =
      (publish_scheduled_task env db tid cid ps now1).2.1.published ∧
    (∀ p k, hasR (publish_scheduled_task env db tid cid ps now1).2.1 tid p = true →
      (p, k) ∉ (publish_scheduled_task env
        (publish_scheduled_task env db tid cid ps now1).2.1 tid cid ps now2).2.2) ∧
    (∀ p ∈ ps, ∀ ex,
      check_published (publish_scheduled_task env db tid cid ps now1).2.1 tid p = some ex →
      lookupA ((publish_scheduled_task env
          (publish_scheduled_task env db tid cid ps now1).2.1 tid cid ps now2).1.resultsMap) p =
        some (.skipped ex.post_id ex.post_url)) := by
  rw [publish_executed_expand env db tid cid ps now1 cs ht hc hcs]
  dsimp only
  set A := update_task_status db tid "running" none none now1 with hA
  set L1 := pubLoop env cs tid now1 A [] [] ps with hL1
  set R1 := update_task_status L1.1 tid (aggStatus L1.2.1) none (some L1.2.1) now1 with hR1
  have ht2 : ∀ t ∈ get_task R1 tid, t.status ≠ "cancelled" := by
    intro t htm
    rw [Option.mem_def] at htm
    rw [hR1, get_task_update_self] at htm
    cases hg0 : get_task L1.1 tid with
    | none => rw [hg0] at htm; simp at htm
    | some t0 =>
      rw [hg0] at htm
      have heq : t = updateRow (aggStatus L1.2.1) none (some L1.2.1) now1 t0 := by
        simpa using htm.symm
      rw [heq, updateRow_status]
      rcases aggStatus_cases L1.2.1 with hA2 | hA2 | hA2 <;> rw [hA2] <;> simp
  have hc2 : get_content R1 cid = some cs := by
    rw [get_content_congr R1 db cid ?hcc]
    · exact hc
    case hcc =>
      rw [hR1, update_task_status_contents, hL1, pubLoop_contents, hA,
        update_task_status_contents]
  rw [publish_executed_expand env R1 tid cid ps now2 cs ht2 hc2 hcs]
  dsimp only
  set B := update_task_status R1 tid "running" none none now2 with hB
  set L2 := pubLoop env cs tid now2 B [] [] ps with hL2
  have hBpub : B.published = L1.1.published := rfl
  have H2 : ∀ p ∈ ps, stepSucceeds env cs p = true → hasR B tid p = true := by
    intro p hp hs
    rw [hasR_congr B L1.1 tid p hBpub, hL1, pubLoop_hasR]
    simp [hp, hs]
  have hfix := pubLoop_fix env cs tid now2 ps B [] [] H2
  refine ⟨?_, ?_, ?_⟩
  · show (update_task_status L2.1 tid (aggStatus L2.2.1) none (some L2.2.1) now2).published =
      R1.published
    rw [update_task_status_published, hfix.1]
    rfl
  · intro p k hR hmem
    rcases hfix.2 (p, k) hmem with hin | hfalse
    · simp at hin
    · have hBR : hasR B tid p = hasR R1 tid p := hasR_congr B R1 tid p rfl
      rw [hBR] at hfalse
      rw [hR] at hfalse
      cases hfalse
  · intro p hp ex hex
    have hex2 : check_published B tid p = some ex := by
      rw [check_published_congr B R1 tid p rfl]
      exact hex
    have := pubLoop_skipped env cs tid now2 ps p B [] [] ex H2 hp hex2
    simpa [ExecOutcome.resultsMap] using this

/-- Witness for C2 at a concrete store and environment. -/
theorem publish_idempotent_witness :
    (publish_scheduled_task envOk (publish_scheduled_task envOk dbW "t1" "c1" ["reddit"] 5).2.1
        "t1" "c1" ["reddit"] 9).2.1.published =
      (publish_scheduled_task envOk dbW "t1" "c1" ["reddit"] 5).2.1.published :=
  (publish_idempotent envOk dbW "t1" "c1" ["reddit"] 5 9 [("reddit", "hello")]
    (by intro t htm
        have h2 : some taskW = some t := htm
        cases Option.some.inj h2
        decide)
    (by rfl) (by decide)).1


end Pipeline
